import Mathlib

/-!
Verification development for the FinSankey repository.

The repository contains two variants of the data parser `dataParser.ts`
(a loss-routing variant and a sign-as-category variant), a chart renderer
`SankeyChart.tsx` with drag-state persistence, and an older chart variant
embedded in `Taskpane.tsx` with an incident-only drag handler.  This file
gives a shallow embedding of those components over rationals (JavaScript
numbers are modelled as `ℚ`; `NaN` is modelled as the absence of a value,
matching how the parser immediately coerces `NaN` to `0`) and proves or
refutes the specification's claims about them.
-/

attribute [local semireducible] Rat.mul Rat.inv Rat.add Rat.sub Rat.ofScientific

namespace FinSankey

/-- Math.abs on a number. -/
def mathAbs (q : ℚ) : ℚ := if q < 0 then -q else q

/-- Math.max on two numbers. -/
def mathMax (a b : ℚ) : ℚ := if a < b then b else a

/-- Math.min on two numbers. -/
def mathMin (a b : ℚ) : ℚ := if a < b then a else b

/-- Boolean test that one character list is an initial segment of another
(first argument is the pattern). -/
def leadsWith : List Char → List Char → Bool
  | [], _ => true
  | _ :: _, [] => false
  | p :: ps, c :: cs => p == c && leadsWith ps cs

/-- Substring containment on character lists (JS String.prototype.includes). -/
def listContains : List Char → List Char → Bool
  | [], sub => sub.isEmpty
  | c :: rest, sub => leadsWith sub (c :: rest) || listContains rest sub

/-- JS String.prototype.startsWith. -/
def strStartsWith (s pat : String) : Bool := leadsWith pat.data s.data

/-- JS String.prototype.trim: strip whitespace from both ends. -/
def jsTrim (s : String) : String :=
  String.mk (((s.data.dropWhile Char.isWhitespace).reverse.dropWhile Char.isWhitespace).reverse)

/-- JS String.prototype.toLowerCase (on the ASCII range this program's
keyword matching uses). -/
def jsToLower (s : String) : String := String.mk (s.data.map Char.toLower)

/-- JS String.prototype.replace with a plain one-character pattern:
replaces only the first occurrence. -/
def replFirst : List Char → Char → Char → List Char
  | [], _, _ => []
  | c :: rest, pat, rep => if c = pat then rep :: rest else c :: replFirst rest pat rep

/-- JS String.prototype.replace with a plain string pattern:
replaces only the first occurrence. -/
def replFirstStr : List Char → List Char → List Char → List Char
  | [], _, _ => []
  | c :: rest, pat, rep =>
    if leadsWith pat (c :: rest) then rep ++ (c :: rest).drop pat.length
    else c :: replFirstStr rest pat rep

/-- Numeric value of a digit string. -/
def digitsVal (l : List Char) : ℕ := l.foldl (fun a c => 10 * a + (c.toNat - 48)) 0

/-- Powers of ten over the rationals. -/
def pow10 : ℕ → ℚ
  | 0 => 1
  | n + 1 => 10 * pow10 n

/-- Integer powers of ten over the rationals. -/
def pow10Z (z : ℤ) : ℚ := if z < 0 then 1 / pow10 z.natAbs else pow10 z.natAbs

/-- Exponent part of a JS float literal (sign and digits after e/E);
an invalid exponent is ignored, as parseFloat stops at the first invalid
character and keeps the mantissa. -/
def expVal (l : List Char) : ℤ :=
  let p : ℤ × List Char :=
    match l with
    | '-' :: rest => (-1, rest)
    | '+' :: rest => (1, rest)
    | _ => (1, l)
  let ed := p.2.takeWhile Char.isDigit
  if ed.isEmpty then 0 else p.1 * (digitsVal ed : ℤ)

/-- Model of JavaScript parseFloat on the decimal grammar: leading
whitespace skipped, optional sign, digits with optional fraction, optional
exponent; the longest valid numeric prefix is taken and `none` models NaN.
The special literal Infinity is not modelled (never produced by this
program's inputs). -/
def jsParseFloat (s : String) : Option ℚ :=
  let l0 := s.data.dropWhile Char.isWhitespace
  let sgn : ℚ := match l0 with
    | '-' :: _ => -1
    | _ => 1
  let l1 := match l0 with
    | '-' :: rest => rest
    | '+' :: rest => rest
    | _ => l0
  let ip := l1.takeWhile Char.isDigit
  let l2 := l1.dropWhile Char.isDigit
  let fp := match l2 with
    | '.' :: rest => rest.takeWhile Char.isDigit
    | _ => []
  let l3 := match l2 with
    | '.' :: rest => rest.dropWhile Char.isDigit
    | _ => l2
  if ip.isEmpty && fp.isEmpty then none
  else
    let mant : ℚ := (digitsVal ip : ℚ) + (digitsVal fp : ℚ) / pow10 fp.length
    let ex : ℤ := match l3 with
      | 'e' :: rest => expVal rest
      | 'E' :: rest => expVal rest
      | _ => 0
    some (sgn * mant * pow10Z ex)

deriving instance DecidableEq for Except

/-- One Excel cell: text, numeric, or boolean. -/
inductive Cell where
  | str (s : String)
  | num (q : ℚ)
  | boolean (b : Bool)
deriving DecidableEq, Repr

/-- JS truthiness of a cell value (empty string, 0 and false are falsy). -/
def Cell.truthy : Cell → Bool
  | .str s => !(s = "")
  | .num q => !(q = 0)
  | .boolean b => b

/-- JS String() conversion of a cell.  Number-to-string conversion is
modelled exactly for integral values, the only numeric labels this
development exercises (JS renders String(5) as "5"); non-integral
rationals are rendered as num/den, which no claim depends on. -/
def Cell.toStr : Cell → String
  | .str s => s
  | .num q => if q.den = 1 then toString q.num else toString q
  | .boolean b => if b then "true" else "false"

/-- A grid row: list of cells.  Out-of-range access models JS undefined. -/
abbrev Row := List Cell

/-- Truthiness of `row[i]` (undefined is falsy). -/
def cellTruthy : Option Cell → Bool
  | none => false
  | some c => c.truthy

/-- String(row[i]) where an absent cell is JS undefined. -/
def cellStrOpt : Option Cell → String
  | none => "undefined"
  | some c => c.toStr

/-! Shared declarations of dataParser.ts (identical in both variants). -/

/-- Color classification driving node and link colors. -/
inductive ColorClass where
  | profit
  | cost
  | neutral
deriving DecidableEq, Repr

/-- COLORS.*.fill entries. -/
def fillOf : ColorClass → String
  | .profit => "#4CAF50"
  | .cost => "#E91E63"
  | .neutral => "#9E9E9E"

/-- COLORS.*.accent entries. -/
def accentOf : ColorClass → String
  | .profit => "#2E7D32"
  | .cost => "#880E4F"
  | .neutral => "#424242"

/-- COLORS.*.link entries. -/
def linkOf : ColorClass → String
  | .profit => "rgba(76,175,80,0.5)"
  | .cost => "rgba(233,30,99,0.5)"
  | .neutral => "rgba(158,158,158,0.45)"

/-- PROFIT_KW keyword list (loss-routing variant). -/
def PROFIT_KW : List String :=
  ["profit", "revenue", "income", "earnings", "gain", "net", "gross", "ebit"]

/-- COST_KW keyword list (loss-routing variant). -/
def COST_KW : List String :=
  ["cost", "expense", "tax", "loss", "charge", "r&d", "sg&a", "cogs", "deprec", "amort", "interest", "other"]

/-- classifyId: case-insensitive keyword classification of a label,
checking cost keywords before profit keywords. -/
def classifyId (id : String) : ColorClass :=
  let lo := jsToLower id
  if COST_KW.any (fun k => listContains lo.data k.data) then .cost
  else if PROFIT_KW.any (fun k => listContains lo.data k.data) then .profit
  else .neutral

/-- NodeMeta record of dataParser.ts. -/
structure NodeMeta where
  id : String
  name : String
  totalValue : ℚ
  totalPrior : ℚ
  yoyPct : Option ℚ
  fillColor : String
  accentColor : String
deriving DecidableEq, Repr

/-- LinkMeta record of dataParser.ts. -/
structure LinkMeta where
  sourceId : String
  targetId : String
  value : ℚ
  prior : ℚ
  yoyPct : Option ℚ
  linkColor : String
deriving DecidableEq, Repr

/-- One raw link handed to d3-sankey. -/
structure SankeyLink where
  source : String
  target : String
  value : ℚ
deriving DecidableEq, Repr

/-- GraphData record returned by parseExcelData (nodeMeta is a JS Map,
modelled as an insertion-ordered association list). -/
structure GraphData where
  nodeMeta : List (String × NodeMeta)
  linkMeta : List LinkMeta
  sankeyNodes : List String
  sankeyLinks : List SankeyLink
deriving DecidableEq, Repr

/-- Normalization applied by parseNum before parseFloat: trim, strip all
embedded whitespace, then turn the first comma into a decimal point. -/
def parseNumNorm (s : String) : String :=
  String.mk (replFirst ((jsTrim s).data.filter (fun c => !c.isWhitespace)) ',' '.')

/-- parseNum: numbers pass through; anything else is stringified,
normalized and fed to parseFloat, with NaN (and 0 itself) collapsing to 0
through the trailing OR-with-zero in the source. -/
def parseNum : Cell → ℚ
  | .num q => q
  | c =>
    match jsParseFloat (parseNumNorm c.toStr) with
    | none => 0
    | some q => q

/-- Trimmed source label of a row: String(row[0]).trim(). -/
def rowSrc (r : Row) : String := jsTrim (cellStrOpt (r.get? 0))

/-- Trimmed target label of a row: String(row[1]).trim(). -/
def rowTgt (r : Row) : String := jsTrim (cellStrOpt (r.get? 1))

/-- Current amount of a row: parseNum(row[2]); an absent cell behaves as 0
since parseNum coerces the string "undefined" to 0. -/
def rowVal (r : Row) : ℚ :=
  match r.get? 2 with
  | some c => parseNum c
  | none => 0

/-- Prior amount of a row: parseNum(row[3] ?? 0). -/
def rowPrior (r : Row) : ℚ :=
  match r.get? 3 with
  | some c => parseNum c
  | none => 0

/-- A row is processed only when both labels are truthy
(the loop does continue on !row[0] || !row[1]). -/
def accepted (r : Row) : Bool := cellTruthy (r.get? 0) && cellTruthy (r.get? 1)

/-- Per-row year-over-year percentage:
prior !== 0 ? ((val - prior) / Math.abs(prior)) * 100 : null. -/
def yoyOf (r : Row) : Option ℚ :=
  if rowPrior r ≠ 0 then some ((rowVal r - rowPrior r) / mathAbs (rowPrior r) * 100) else none

/-- Header detection: the first row is a header exactly when its third
cell is of string type and parseFloat on it (after comma-to-dot
replacement) yields NaN. -/
def hasHeader (first : Row) : Bool :=
  match first.get? 2 with
  | some (Cell.str s) => (jsParseFloat (String.mk (replFirst s.data ',' '.'))).isNone
  | _ => false

/-- The data rows actually iterated: the tail when a header is detected,
the whole grid otherwise. -/
def dataRows (raw : List Row) : List Row :=
  match raw with
  | [] => []
  | first :: rest => if hasHeader first then rest else first :: rest

/-- The rows that produce links, in order. -/
def acceptedRows (raw : List Row) : List Row := (dataRows raw).filter accepted

/-- Validation error message thrown when fewer than 2 rows are selected. -/
def validationMsg : String :=
  "Select at least 2 rows (header + 1 data row) with columns: Source | Target | Amount current | Amount last year"

/-! A JS Map keyed by string, modelled as an insertion-ordered association
list.  touch inserts a fresh default entry at the end when the key is
absent; updT models in-place mutation of the entry's object. -/

section KeyedMap

variable {α : Type}

/-- Map.get: the value at the first (the only, by construction) entry
with this key. -/
def findT : List (String × α) → String → Option α
  | [], _ => none
  | (k, v) :: rest, id => if k = id then some v else findT rest id

/-- Map.has. -/
def hasKey (m : List (String × α)) (id : String) : Bool := (findT m id).isSome

/-- The touch helper of parseExcelData: insert a default entry when the
key is not yet present. -/
def touch (d : α) (m : List (String × α)) (id : String) : List (String × α) :=
  if hasKey m id then m else m ++ [(id, d)]

/-- In-place mutation of the entry at a key (no effect when absent). -/
def updT : List (String × α) → String → (α → α) → List (String × α)
  | [], _, _ => []
  | (k, v) :: rest, id, f =>
    if k = id then (k, f v) :: updT rest id f else (k, v) :: updT rest id f

/-- A numeric projection of the entry at a key, 0 when absent. -/
def projAt (pj : α → ℚ) (m : List (String × α)) (id : String) : ℚ :=
  ((findT m id).map pj).getD 0

end KeyedMap

namespace VariantA

/-! The loss-routing variant of dataParser.ts (negative current amounts
are redirected to a synthetic loss node namespaced under the target). -/

/-- Accumulated totals per node id. -/
structure Totals where
  value : ℚ
  prior : ℚ
deriving DecidableEq, Repr

/-- Fresh entry created by touch. -/
def defA : Totals := { value := 0, prior := 0 }

/-- Loss shadow node id for a row's target. -/
def lossIdOf (r : Row) : String := "__loss__" ++ rowTgt r

/-- The node that receives the row's incoming accumulation: the loss
shadow node for negative amounts, the declared target otherwise. -/
def resTgtA (r : Row) : String := if rowVal r < 0 then lossIdOf r else rowTgt r

/-- One row's contribution to a node's totals object
(value += abs(val); prior += abs(prior)). -/
def addRowA (r : Row) (t : Totals) : Totals :=
  { value := t.value + mathAbs (rowVal r), prior := t.prior + mathAbs (rowPrior r) }

/-- The LinkMeta entry pushed for a row. -/
def mkLinkA (r : Row) : LinkMeta :=
  { sourceId := rowSrc r
    targetId := resTgtA r
    value := mathAbs (rowVal r)
    prior := mathAbs (rowPrior r)
    yoyPct := yoyOf r
    linkColor := if rowVal r < 0 then linkOf ColorClass.cost else linkOf (classifyId (rowTgt r)) }

/-- The raw sankey link pushed for a row; a zero magnitude is floored to
0.001 through the OR in the source (absVal || 0.001). -/
def mkSankeyA (r : Row) : SankeyLink :=
  { source := rowSrc r
    target := resTgtA r
    value := if mathAbs (rowVal r) = 0 then 1 / 1000 else mathAbs (rowVal r) }

/-- Parser state while iterating the rows. -/
structure StateA where
  nodeTotals : List (String × Totals)
  linkMeta : List LinkMeta
  sankeyLinks : List SankeyLink
deriving DecidableEq, Repr

/-- The target-side accumulation of a row: into the loss shadow node
(created on demand) for negative amounts, into the declared target
otherwise. -/
def accumTgtA (r : Row) (nt : List (String × Totals)) : List (String × Totals) :=
  if rowVal r < 0 then updT (touch defA nt (lossIdOf r)) (lossIdOf r) (addRowA r)
  else updT nt (rowTgt r) (addRowA r)

/-- One iteration of the row loop of parseExcelData (loss-routing
variant): skip rows with a falsy label; otherwise touch both declared
nodes, accumulate the source side, then route the target side. -/
def stepA (st : StateA) (r : Row) : StateA :=
  if accepted r = true then
    { nodeTotals :=
        accumTgtA r
          (updT (touch defA (touch defA st.nodeTotals (rowSrc r)) (rowTgt r)) (rowSrc r) (addRowA r))
      linkMeta := st.linkMeta ++ [mkLinkA r]
      sankeyLinks := st.sankeyLinks ++ [mkSankeyA r] }
  else st

/-- NodeMeta construction from a node's accumulated totals. -/
def buildNodeA (id : String) (t : Totals) : NodeMeta :=
  let isLoss := strStartsWith id "__loss__"
  let name := if isLoss then String.mk (replFirstStr id.data ("__loss__").data []) ++ " (loss)" else id
  let cls := if isLoss then ColorClass.cost else classifyId id
  { id := id
    name := name
    totalValue := t.value
    totalPrior := t.prior
    yoyPct := if t.prior ≠ 0 then some ((t.value - t.prior) / t.prior * 100) else none
    fillColor := fillOf cls
    accentColor := accentOf cls }

/-- parseExcelData, loss-routing variant. -/
def parseExcelData (rawValues : List Row) : Except String GraphData :=
  if rawValues.length < 2 then .error validationMsg
  else
    let st := (dataRows rawValues).foldl stepA { nodeTotals := [], linkMeta := [], sankeyLinks := [] }
    .ok
      { nodeMeta := st.nodeTotals.map (fun p => (p.1, buildNodeA p.1 p.2))
        linkMeta := st.linkMeta
        sankeyNodes := st.nodeTotals.map Prod.fst
        sankeyLinks := st.sankeyLinks }

end VariantA

namespace VariantB

/-! The sign-as-category variant of dataParser.ts (edges always connect the
declared source to the declared target; the sign only drives colors). -/

/-- Accumulated totals per node id. -/
structure Totals where
  inVal : ℚ
  outVal : ℚ
  inPrior : ℚ
  outPrior : ℚ
  rawSum : ℚ
  rawOutSum : ℚ
deriving DecidableEq, Repr

/-- Fresh entry created by touch. -/
def defB : Totals :=
  { inVal := 0, outVal := 0, inPrior := 0, outPrior := 0, rawSum := 0, rawOutSum := 0 }

/-- Outgoing-side mutation of the source node's totals. -/
def addOutB (r : Row) (t : Totals) : Totals :=
  { t with
    outVal := t.outVal + mathAbs (rowVal r)
    outPrior := t.outPrior + mathAbs (rowPrior r)
    rawOutSum := t.rawOutSum + rowVal r }

/-- Incoming-side mutation of the target node's totals. -/
def addInB (r : Row) (t : Totals) : Totals :=
  { t with
    inVal := t.inVal + mathAbs (rowVal r)
    inPrior := t.inPrior + mathAbs (rowPrior r)
    rawSum := t.rawSum + rowVal r }

/-- The LinkMeta entry pushed for a row (sign only picks the color). -/
def mkLinkB (r : Row) : LinkMeta :=
  { sourceId := rowSrc r
    targetId := rowTgt r
    value := mathAbs (rowVal r)
    prior := mathAbs (rowPrior r)
    yoyPct := yoyOf r
    linkColor := if rowVal r < 0 then linkOf ColorClass.cost else linkOf ColorClass.profit }

/-- The raw sankey link pushed for a row (zero magnitude floored to
0.001 through absVal || 0.001). -/
def mkSankeyB (r : Row) : SankeyLink :=
  { source := rowSrc r
    target := rowTgt r
    value := if mathAbs (rowVal r) = 0 then 1 / 1000 else mathAbs (rowVal r) }

/-- Parser state while iterating the rows. -/
structure StateB where
  nodeTotals : List (String × Totals)
  linkMeta : List LinkMeta
  sankeyLinks : List SankeyLink
deriving DecidableEq, Repr

/-- One iteration of the row loop of parseExcelData (sign-as-category
variant). -/
def stepB (st : StateB) (r : Row) : StateB :=
  if accepted r = true then
    { nodeTotals :=
        updT
          (updT (touch defB (touch defB st.nodeTotals (rowSrc r)) (rowTgt r)) (rowSrc r) (addOutB r))
          (rowTgt r) (addInB r)
      linkMeta := st.linkMeta ++ [mkLinkB r]
      sankeyLinks := st.sankeyLinks ++ [mkSankeyB r] }
  else st

/-- NodeMeta construction from a node's accumulated totals: the node value
is the larger of total-in and total-out, the class comes from the sign of
the raw signed sum on the dominant side. -/
def buildNodeB (id : String) (t : Totals) : NodeMeta :=
  let cls :=
    if t.inVal > 0 then (if t.rawSum < 0 then ColorClass.cost else ColorClass.profit)
    else if t.outVal > 0 then (if t.rawOutSum < 0 then ColorClass.cost else ColorClass.profit)
    else ColorClass.profit
  let nodeVal := mathMax t.inVal t.outVal
  let nodePrior := mathMax t.inPrior t.outPrior
  { id := id
    name := id
    totalValue := nodeVal
    totalPrior := nodePrior
    yoyPct := if nodePrior ≠ 0 then some ((nodeVal - nodePrior) / nodePrior * 100) else none
    fillColor := fillOf cls
    accentColor := accentOf cls }

/-- parseExcelData, sign-as-category variant. -/
def parseExcelData (rawValues : List Row) : Except String GraphData :=
  if rawValues.length < 2 then .error validationMsg
  else
    let st := (dataRows rawValues).foldl stepB { nodeTotals := [], linkMeta := [], sankeyLinks := [] }
    .ok
      { nodeMeta := st.nodeTotals.map (fun p => (p.1, buildNodeB p.1 p.2))
        linkMeta := st.linkMeta
        sankeyNodes := st.nodeTotals.map Prod.fst
        sankeyLinks := st.sankeyLinks }

end VariantB

namespace Chart

/-! Layout state of SankeyChart.tsx after d3-sankey has decorated the
nodes and links.  Only the positional fields touched by the drag handlers
are modelled. -/

/-- A laid-out node (x0, x1, y0, y1 rectangle). -/
structure LNode where
  id : String
  x0 : ℚ
  x1 : ℚ
  y0 : ℚ
  y1 : ℚ
deriving DecidableEq, Repr

/-- A laid-out link: endpoints by node id, band width, and the port
y-coordinates at the source (y0) and target (y1) sides. -/
structure LLink where
  source : String
  target : String
  width : ℚ
  y0 : ℚ
  y1 : ℚ
deriving DecidableEq, Repr

/-- y0 of the first node carrying an id (d3-sankey resolves links to node
objects; ids are unique in its graphs). -/
def nodeY0 : List LNode → String → ℚ
  | [], _ => 0
  | n :: rest, id => if n.id = id then n.y0 else nodeY0 rest id

/-- Cumulative width of the earlier links on the same side of the same
node: the stacking offset of link number i. -/
def sideOffset (ls : List LLink) (i : ℕ) (sel : LLink → String) (v : String) : ℚ :=
  (((ls.take i).filter (fun l2 => sel l2 == v)).map LLink.width).sum

/-- Port assignment for one link.  Modelled from the spec (section 4.2,
port allocation): the d3-sankey dependency's computeLinkBreadths, invoked
by sankey().update(graph), stacks each node's links in a stable per-node
order, placing each port at the node's top plus the cumulative width of
the earlier links plus half the link's own width. -/
def breadthOne (ns : List LNode) (all : List LLink) (i : ℕ) (lk : LLink) : LLink :=
  { lk with
    y0 := nodeY0 ns lk.source + sideOffset all i LLink.source lk.source + lk.width / 2
    y1 := nodeY0 ns lk.target + sideOffset all i LLink.target lk.target + lk.width / 2 }

/-- Port assignment for the suffix of the link list beginning at index i. -/
def breadthsFrom (ns : List LNode) (all : List LLink) : ℕ → List LLink → List LLink
  | _, [] => []
  | i, lk :: rest => breadthOne ns all i lk :: breadthsFrom ns all (i + 1) rest

/-- Recompute every link's ports from the current node positions
(d3-sankey update). -/
def computeLinkBreadths (ns : List LNode) (ls : List LLink) : List LLink :=
  breadthsFrom ns ls 0 ls

/-- The node mutation in the SankeyChart.tsx drag handler: shift the
dragged node by the event delta, keeping its width and height. -/
def dragNodes (ns : List LNode) (d : String) (dx dy : ℚ) : List LNode :=
  ns.map (fun n =>
    if n.id = d then
      { n with
        x0 := n.x0 + dx
        x1 := n.x0 + dx + (n.x1 - n.x0)
        y0 := n.y0 + dy
        y1 := n.y0 + dy + (n.y1 - n.y0) }
    else n)

/-- The SankeyChart.tsx drag handler: move the dragged node, then let the
layout recompute the internal link positions for the whole graph. -/
def applyDrag (ns : List LNode) (ls : List LLink) (d : String) (dx dy : ℚ) :
    List LNode × List LLink :=
  let ns2 := dragNodes ns d dx dy
  (ns2, computeLinkBreadths ns2 ls)

/-- The older drag handler embedded in Taskpane.tsx: clamp the dragged
node's vertical position to the canvas and move it; link records are not
touched (only the incident paths are redrawn). -/
def applyDragClamped (ns : List LNode) (d : String) (dy H : ℚ) : List LNode :=
  ns.map (fun n =>
    if n.id = d then
      { n with
        y0 := mathMax 0 (mathMin (H - (n.y1 - n.y0)) (n.y0 + dy))
        y1 := mathMax 0 (mathMin (H - (n.y1 - n.y0)) (n.y0 + dy)) + (n.y1 - n.y0) }
    else n)

/-- Re-application of the recorded drag state after a fresh layout run
(SankeyChart.tsx): every node with a saved position is moved there,
keeping the freshly computed width and height. -/
def reapplySaved (saved : List (String × ℚ × ℚ)) (ns : List LNode) : List LNode :=
  ns.map (fun n =>
    match findT saved n.id with
    | some sv =>
      { n with
        x0 := sv.1
        x1 := sv.1 + (n.x1 - n.x0)
        y0 := sv.2
        y1 := sv.2 + (n.y1 - n.y0) }
    | none => n)

/-- A full re-layout pass around the external d3-sankey call: the freshly
computed nodes and links are taken as input, the saved drag state is
re-applied, and, when any drag state exists, the link positions are
recomputed from the re-applied node positions before rendering. -/
def relayout (saved : List (String × ℚ × ℚ)) (ns : List LNode) (ls : List LLink) :
    List LNode × List LLink :=
  let ns2 := reapplySaved saved ns
  (ns2, if saved.isEmpty then ls else computeLinkBreadths ns2 ls)

end Chart

/-! Lemmas about the keyed map. -/

section KeyedMapLemmas

variable {α : Type}

lemma findT_append_single (m : List (String × α)) (k : String) (d : α) (id : String) :
    findT (m ++ [(k, d)]) id =
      match findT m id with
      | some v => some v
      | none => if k = id then some d else none := by
  induction m with
  | nil => simp [findT]
  | cons p rest ih =>
    by_cases h : p.1 = id
    · simp [findT, h]
    · simpa [findT, h] using ih

lemma findT_eq_none_of_hasKey_false {m : List (String × α)} {id : String}
    (h : hasKey m id = false) : findT m id = none := by
  unfold hasKey at h
  cases hf : findT m id with
  | none => rfl
  | some v => rw [hf] at h; simp at h

lemma projAt_touch (pj : α → ℚ) (d : α) (h0 : pj d = 0) (m : List (String × α))
    (k id : String) : projAt pj (touch d m k) id = projAt pj m id := by
  unfold touch
  by_cases h : hasKey m k
  · simp [h]
  · simp only [h, if_false, Bool.false_eq_true, projAt, findT_append_single]
    cases hf : findT m id with
    | some v => simp
    | none =>
      by_cases hk : k = id <;> simp [hk, h0]

lemma findT_updT (m : List (String × α)) (k : String) (f : α → α) (id : String) :
    findT (updT m k f) id = if k = id then (findT m id).map f else findT m id := by
  induction m with
  | nil => simp [findT, updT]
  | cons p rest ih =>
    obtain ⟨k0, v⟩ := p
    by_cases h1 : k0 = k
    · subst h1
      by_cases h2 : k0 = id
      · subst h2; simp [findT, updT]
      · simp [findT, updT, h2, ih]
    · by_cases h2 : k0 = id
      · subst h2
        have h4 : ¬ k = k0 := fun hh => h1 hh.symm
        simp [findT, updT, h1, h4]
      · simp [findT, updT, h1, h2, ih]

lemma projAt_updT_pres (pj : α → ℚ) (f : α → α) (h : ∀ t, pj (f t) = pj t)
    (m : List (String × α)) (k id : String) :
    projAt pj (updT m k f) id = projAt pj m id := by
  unfold projAt
  rw [findT_updT]
  by_cases hk : k = id
  · simp only [hk, if_true]
    cases findT m id <;> simp [h]
  · simp [hk]

lemma projAt_updT_add (pj : α → ℚ) (f : α → α) (c : ℚ) (h : ∀ t, pj (f t) = pj t + c)
    (m : List (String × α)) (k id : String) (hk : hasKey m k = true) :
    projAt pj (updT m k f) id = projAt pj m id + (if k = id then c else 0) := by
  unfold projAt
  rw [findT_updT]
  by_cases hki : k = id
  · subst hki
    unfold hasKey at hk
    cases hf : findT m k with
    | none => rw [hf] at hk; simp at hk
    | some t => simp [hf, h]
  · simp [hki]

lemma hasKey_touch_self (d : α) (m : List (String × α)) (k : String) :
    hasKey (touch d m k) k = true := by
  by_cases h : hasKey m k = true
  · simp [touch, h]
  · have hn : findT m k = none := findT_eq_none_of_hasKey_false (by simpa using h)
    simp [touch, h, hasKey, findT_append_single, hn]

lemma hasKey_touch_mono (d : α) (m : List (String × α)) (k id : String)
    (h : hasKey m id = true) : hasKey (touch d m k) id = true := by
  by_cases hk : hasKey m k = true
  · simpa [touch, hk]
  · have hs : (findT m id).isSome = true := h
    cases hf : findT m id with
    | none => rw [hf] at hs; simp at hs
    | some v =>
      have hk2 : ¬ (findT m k).isSome = true := by simpa [hasKey] using hk
      simp [touch, hasKey, hk2, findT_append_single, hf]

lemma hasKey_updT (m : List (String × α)) (k : String) (f : α → α) (id : String) :
    hasKey (updT m k f) id = hasKey m id := by
  unfold hasKey
  rw [findT_updT]
  by_cases hk : k = id
  · simp only [hk, if_true]
    cases findT m id <;> simp
  · simp [hk]

lemma keys_updT (m : List (String × α)) (k : String) (f : α → α) :
    (updT m k f).map Prod.fst = m.map Prod.fst := by
  induction m with
  | nil => simp [updT]
  | cons p rest ih =>
    obtain ⟨k0, v⟩ := p
    by_cases h : k0 = k <;> simp [updT, h, ih]

lemma findT_eq_none_iff_not_mem (m : List (String × α)) (id : String) :
    findT m id = none ↔ id ∉ m.map Prod.fst := by
  induction m with
  | nil => simp [findT]
  | cons p rest ih =>
    obtain ⟨k0, v⟩ := p
    by_cases h : k0 = id
    · simp [findT, h]
    · simp [findT, h, ih, Ne.symm h]

lemma keys_touch_nodup (d : α) (m : List (String × α)) (k : String)
    (h : (m.map Prod.fst).Nodup) : ((touch d m k).map Prod.fst).Nodup := by
  unfold touch
  by_cases hk : hasKey m k
  · simpa [hk]
  · simp only [hk, if_false, Bool.false_eq_true, List.map_append, List.map_cons, List.map_nil]
    rw [List.nodup_append]
    refine ⟨h, List.nodup_singleton k, ?_⟩
    intro a ha hb
    simp only [List.mem_singleton] at hb
    subst hb
    exact ((findT_eq_none_iff_not_mem m a).mp (findT_eq_none_of_hasKey_false (by simpa using hk))) ha

lemma findT_of_mem_nodup {m : List (String × α)} {k : String} {v : α}
    (h : (m.map Prod.fst).Nodup) (hm : (k, v) ∈ m) : findT m k = some v := by
  induction m with
  | nil => simp at hm
  | cons p rest ih =>
    obtain ⟨k0, v0⟩ := p
    simp only [List.map_cons, List.nodup_cons] at h
    rcases List.mem_cons.mp hm with heq | hmem
    · injection heq with hk hv
      subst hk
      subst hv
      simp [findT]
    · have hne : k0 ≠ k := by
        intro hkk
        subst hkk
        exact h.1 (by simpa using List.mem_map_of_mem Prod.fst hmem)
      simp [findT, hne, ih h.2 hmem]

end KeyedMapLemmas

/-- Folding a step function whose effect on a numeric observable is to add
one per-row contribution accumulates the sum of the contributions. -/
lemma foldl_proj_sum {σ : Type} (step : σ → Row → σ) (f : σ → ℚ) (c : Row → ℚ)
    (h : ∀ s r, f (step s r) = f s + c r) :
    ∀ (rows : List Row) (s : σ), f (rows.foldl step s) = f s + (rows.map c).sum := by
  intro rows
  induction rows with
  | nil => intro s; simp
  | cons r rest ih =>
    intro s
    simp only [List.foldl_cons, List.map_cons, List.sum_cons, ih, h]
    ring

namespace VariantA

/-! Observables of the loss-routing parser state, and the independent
row-sum specifications they are proved to compute. -/

/-- The accumulated current magnitude of a node (0 when absent). -/
def valueAt (st : StateA) (id : String) : ℚ := projAt Totals.value st.nodeTotals id

/-- The accumulated prior magnitude of a node (0 when absent). -/
def priorAt (st : StateA) (id : String) : ℚ := projAt Totals.prior st.nodeTotals id

/-- One row's contribution to a node's current total: abs(amount) once for
the source role and once for the resolved-target role. -/
def valContrib (r : Row) (id : String) : ℚ :=
  (if accepted r = true ∧ rowSrc r = id then mathAbs (rowVal r) else 0) +
    (if accepted r = true ∧ resTgtA r = id then mathAbs (rowVal r) else 0)

/-- One row's contribution to a node's prior total. -/
def priorContrib (r : Row) (id : String) : ℚ :=
  (if accepted r = true ∧ rowSrc r = id then mathAbs (rowPrior r) else 0) +
    (if accepted r = true ∧ resTgtA r = id then mathAbs (rowPrior r) else 0)

/-- Row-sum specification of a node's current total. -/
def valSum (rows : List Row) (id : String) : ℚ := (rows.map (fun r => valContrib r id)).sum

/-- Row-sum specification of a node's prior total. -/
def priorSum (rows : List Row) (id : String) : ℚ := (rows.map (fun r => priorContrib r id)).sum

/-- Effect of one accepted row on any additive observable of the totals
map: the source gains one contribution and the resolved target another. -/
lemma stepA_projAt (r : Row) (pj : Totals → ℚ) (c : ℚ)
    (h0 : pj defA = 0) (hadd : ∀ t, pj (addRowA r t) = pj t + c)
    (st : StateA) (id : String) (hacc : accepted r = true) :
    projAt pj (stepA st r).nodeTotals id =
      projAt pj st.nodeTotals id +
        (if rowSrc r = id then c else 0) + (if resTgtA r = id then c else 0) := by
  simp only [stepA, hacc, if_true]
  unfold accumTgtA
  by_cases hval : rowVal r < 0
  · simp only [hval, if_true]
    rw [projAt_updT_add pj (addRowA r) c hadd _ _ _ (hasKey_touch_self _ _ _)]
    rw [projAt_touch pj defA h0]
    rw [projAt_updT_add pj (addRowA r) c hadd _ _ _
      (hasKey_touch_mono _ _ _ _ (hasKey_touch_self _ _ _))]
    rw [projAt_touch pj defA h0, projAt_touch pj defA h0]
    unfold resTgtA
    simp only [hval, if_true]
  · simp only [hval, if_false]
    rw [projAt_updT_add pj (addRowA r) c hadd _ _ _
      (by rw [hasKey_updT]; exact hasKey_touch_self _ _ _)]
    rw [projAt_updT_add pj (addRowA r) c hadd _ _ _
      (hasKey_touch_mono _ _ _ _ (hasKey_touch_self _ _ _))]
    rw [projAt_touch pj defA h0, projAt_touch pj defA h0]
    unfold resTgtA
    simp only [hval, if_false]

/-- Per-row form of the current-total accumulation. -/
lemma stepA_valueAt (st : StateA) (r : Row) (id : String) :
    valueAt (stepA st r) id = valueAt st id + valContrib r id := by
  by_cases hacc : accepted r = true
  · have h := stepA_projAt r Totals.value (mathAbs (rowVal r)) rfl (fun t => rfl) st id hacc
    unfold valueAt valContrib
    rw [h]
    simp only [hacc, true_and]
    ring
  · unfold valueAt valContrib stepA
    simp [hacc]

/-- Per-row form of the prior-total accumulation. -/
lemma stepA_priorAt (st : StateA) (r : Row) (id : String) :
    priorAt (stepA st r) id = priorAt st id + priorContrib r id := by
  by_cases hacc : accepted r = true
  · have h := stepA_projAt r Totals.prior (mathAbs (rowPrior r)) rfl (fun t => rfl) st id hacc
    unfold priorAt priorContrib
    rw [h]
    simp only [hacc, true_and]
    ring
  · unfold priorAt priorContrib stepA
    simp [hacc]

/-- The row loop computes every node's current total as the row sum. -/
lemma foldA_valueAt (rows : List Row) (st : StateA) (id : String) :
    valueAt (rows.foldl stepA st) id = valueAt st id + valSum rows id :=
  foldl_proj_sum stepA (fun s => valueAt s id) (fun r => valContrib r id)
    (fun s r => stepA_valueAt s r id) rows st

/-- The row loop computes every node's prior total as the row sum. -/
lemma foldA_priorAt (rows : List Row) (st : StateA) (id : String) :
    priorAt (rows.foldl stepA st) id = priorAt st id + priorSum rows id :=
  foldl_proj_sum stepA (fun s => priorAt s id) (fun r => priorContrib r id)
    (fun s r => stepA_priorAt s r id) rows st

/-- The row loop appends exactly one LinkMeta entry per accepted row. -/
lemma foldA_linkMeta (rows : List Row) (st : StateA) :
    (rows.foldl stepA st).linkMeta = st.linkMeta ++ (rows.filter accepted).map mkLinkA := by
  induction rows generalizing st with
  | nil => simp
  | cons r rest ih =>
    by_cases hacc : accepted r = true
    · simp [List.foldl_cons, ih, stepA, hacc, List.filter_cons]
    · simp [List.foldl_cons, ih, stepA, hacc, List.filter_cons]

/-- The row loop appends exactly one raw sankey link per accepted row. -/
lemma foldA_sankey (rows : List Row) (st : StateA) :
    (rows.foldl stepA st).sankeyLinks = st.sankeyLinks ++ (rows.filter accepted).map mkSankeyA := by
  induction rows generalizing st with
  | nil => simp
  | cons r rest ih =>
    by_cases hacc : accepted r = true
    · simp [List.foldl_cons, ih, stepA, hacc, List.filter_cons]
    · simp [List.foldl_cons, ih, stepA, hacc, List.filter_cons]

/-- The totals map never acquires a duplicate key. -/
lemma foldA_keysNodup (rows : List Row) (st : StateA)
    (h : (st.nodeTotals.map Prod.fst).Nodup) :
    (((rows.foldl stepA st).nodeTotals).map Prod.fst).Nodup := by
  induction rows generalizing st with
  | nil => exact h
  | cons r rest ih =>
    rw [List.foldl_cons]
    apply ih
    by_cases hacc : accepted r = true
    · simp only [stepA, hacc, if_true]
      unfold accumTgtA
      by_cases hval : rowVal r < 0
      · simp only [hval, if_true]
        rw [keys_updT]
        apply keys_touch_nodup
        rw [keys_updT]
        exact keys_touch_nodup _ _ _ (keys_touch_nodup _ _ _ h)
      · simp only [hval, if_false]
        rw [keys_updT, keys_updT]
        exact keys_touch_nodup _ _ _ (keys_touch_nodup _ _ _ h)
    · simpa [stepA, hacc] using h

/-- Components of a successful parse, in terms of the row-level
specifications. -/
lemma parseA_ok {raw : List Row} {g : GraphData} (h : parseExcelData raw = .ok g) :
    g.linkMeta = (acceptedRows raw).map mkLinkA ∧
      g.sankeyLinks = (acceptedRows raw).map mkSankeyA ∧
      g.nodeMeta =
        ((dataRows raw).foldl stepA { nodeTotals := [], linkMeta := [], sankeyLinks := [] }).nodeTotals.map
          (fun p => (p.1, buildNodeA p.1 p.2)) := by
  unfold parseExcelData at h
  by_cases hlen : raw.length < 2
  · rw [if_pos hlen] at h
    exact absurd h (by simp)
  · rw [if_neg hlen] at h
    simp only [Except.ok.injEq] at h
    subst h
    refine ⟨?_, ?_, rfl⟩
    · simpa [acceptedRows] using foldA_linkMeta (dataRows raw) _
    · simpa [acceptedRows] using foldA_sankey (dataRows raw) _

/-- Every nodeMeta entry of a successful parse carries the row sums of its
id as its totals. -/
lemma parseA_nodeMeta {raw : List Row} {g : GraphData} {id : String} {m : NodeMeta}
    (h : parseExcelData raw = .ok g) (hm : (id, m) ∈ g.nodeMeta) :
    m = buildNodeA id
      { value := valSum (dataRows raw) id, prior := priorSum (dataRows raw) id } := by
  obtain ⟨-, -, hnode⟩ := parseA_ok h
  rw [hnode] at hm
  obtain ⟨⟨id2, t⟩, hmem, heq⟩ := List.mem_map.mp hm
  injection heq with h1 h2
  dsimp only at h1 h2
  rw [h1] at hmem
  rw [← h2, h1]
  have hnd := foldA_keysNodup (dataRows raw)
    { nodeTotals := [], linkMeta := [], sankeyLinks := [] } (by simp)
  have hfind := findT_of_mem_nodup hnd hmem
  have hv := foldA_valueAt (dataRows raw)
    { nodeTotals := [], linkMeta := [], sankeyLinks := [] } id
  have hp := foldA_priorAt (dataRows raw)
    { nodeTotals := [], linkMeta := [], sankeyLinks := [] } id
  unfold valueAt projAt at hv
  unfold priorAt projAt at hp
  rw [hfind] at hv hp
  simp only [findT, Option.map_some, Option.getD_some] at hv hp
  have ht : t = { value := valSum (dataRows raw) id, prior := priorSum (dataRows raw) id } := by
    cases t
    simp only [Totals.mk.injEq]
    constructor
    · simpa using hv
    · simpa using hp
  rw [ht]

end VariantA

namespace VariantB

/-! Observables of the sign-as-category parser state, and the independent
row-sum specifications they are proved to compute. -/

/-- A node's accumulated incoming current magnitude. -/
def inValAt (st : StateB) (id : String) : ℚ := projAt Totals.inVal st.nodeTotals id

/-- A node's accumulated outgoing current magnitude. -/
def outValAt (st : StateB) (id : String) : ℚ := projAt Totals.outVal st.nodeTotals id

/-- A node's accumulated incoming prior magnitude. -/
def inPriorAt (st : StateB) (id : String) : ℚ := projAt Totals.inPrior st.nodeTotals id

/-- A node's accumulated outgoing prior magnitude. -/
def outPriorAt (st : StateB) (id : String) : ℚ := projAt Totals.outPrior st.nodeTotals id

/-- One row's contribution to a node's incoming current total. -/
def inContrib (r : Row) (id : String) : ℚ :=
  if accepted r = true ∧ rowTgt r = id then mathAbs (rowVal r) else 0

/-- One row's contribution to a node's outgoing current total. -/
def outContrib (r : Row) (id : String) : ℚ :=
  if accepted r = true ∧ rowSrc r = id then mathAbs (rowVal r) else 0

/-- One row's contribution to a node's incoming prior total. -/
def inPriorContrib (r : Row) (id : String) : ℚ :=
  if accepted r = true ∧ rowTgt r = id then mathAbs (rowPrior r) else 0

/-- One row's contribution to a node's outgoing prior total. -/
def outPriorContrib (r : Row) (id : String) : ℚ :=
  if accepted r = true ∧ rowSrc r = id then mathAbs (rowPrior r) else 0

/-- Row-sum specification of a node's incoming current total. -/
def inSum (rows : List Row) (id : String) : ℚ := (rows.map (fun r => inContrib r id)).sum

/-- Row-sum specification of a node's outgoing current total. -/
def outSum (rows : List Row) (id : String) : ℚ := (rows.map (fun r => outContrib r id)).sum

/-- Row-sum specification of a node's incoming prior total. -/
def inPriorSum (rows : List Row) (id : String) : ℚ := (rows.map (fun r => inPriorContrib r id)).sum

/-- Row-sum specification of a node's outgoing prior total. -/
def outPriorSum (rows : List Row) (id : String) : ℚ := (rows.map (fun r => outPriorContrib r id)).sum

/-- Effect of one accepted row on any additive observable of the totals
map: the source gains the outgoing contribution, the target the incoming
one. -/
lemma stepB_projAt (r : Row) (pj : Totals → ℚ) (cOut cIn : ℚ)
    (h0 : pj defB = 0)
    (hout : ∀ t, pj (addOutB r t) = pj t + cOut)
    (hin : ∀ t, pj (addInB r t) = pj t + cIn)
    (st : StateB) (id : String) (hacc : accepted r = true) :
    projAt pj (stepB st r).nodeTotals id =
      projAt pj st.nodeTotals id +
        (if rowSrc r = id then cOut else 0) + (if rowTgt r = id then cIn else 0) := by
  simp only [stepB, hacc, if_true]
  rw [projAt_updT_add pj (addInB r) cIn hin _ _ _
    (by rw [hasKey_updT]; exact hasKey_touch_self _ _ _)]
  rw [projAt_updT_add pj (addOutB r) cOut hout _ _ _
    (hasKey_touch_mono _ _ _ _ (hasKey_touch_self _ _ _))]
  rw [projAt_touch pj defB h0, projAt_touch pj defB h0]

/-- Per-row form of the incoming current accumulation. -/
lemma stepB_inValAt (st : StateB) (r : Row) (id : String) :
    inValAt (stepB st r) id = inValAt st id + inContrib r id := by
  by_cases hacc : accepted r = true
  · have h := stepB_projAt r Totals.inVal 0 (mathAbs (rowVal r)) rfl
      (fun t => by simp [addOutB]) (fun t => rfl) st id hacc
    unfold inValAt inContrib
    rw [h]
    simp only [hacc, true_and, ite_self, add_zero]
  · unfold inValAt inContrib stepB
    simp [hacc]

/-- Per-row form of the outgoing current accumulation. -/
lemma stepB_outValAt (st : StateB) (r : Row) (id : String) :
    outValAt (stepB st r) id = outValAt st id + outContrib r id := by
  by_cases hacc : accepted r = true
  · have h := stepB_projAt r Totals.outVal (mathAbs (rowVal r)) 0 rfl
      (fun t => rfl) (fun t => by simp [addInB]) st id hacc
    unfold outValAt outContrib
    rw [h]
    simp only [hacc, true_and, ite_self, add_zero]
  · unfold outValAt outContrib stepB
    simp [hacc]

/-- Per-row form of the incoming prior accumulation. -/
lemma stepB_inPriorAt (st : StateB) (r : Row) (id : String) :
    inPriorAt (stepB st r) id = inPriorAt st id + inPriorContrib r id := by
  by_cases hacc : accepted r = true
  · have h := stepB_projAt r Totals.inPrior 0 (mathAbs (rowPrior r)) rfl
      (fun t => by simp [addOutB]) (fun t => rfl) st id hacc
    unfold inPriorAt inPriorContrib
    rw [h]
    simp only [hacc, true_and, ite_self, add_zero]
  · unfold inPriorAt inPriorContrib stepB
    simp [hacc]

/-- Per-row form of the outgoing prior accumulation. -/
lemma stepB_outPriorAt (st : StateB) (r : Row) (id : String) :
    outPriorAt (stepB st r) id = outPriorAt st id + outPriorContrib r id := by
  by_cases hacc : accepted r = true
  · have h := stepB_projAt r Totals.outPrior (mathAbs (rowPrior r)) 0 rfl
      (fun t => rfl) (fun t => by simp [addInB]) st id hacc
    unfold outPriorAt outPriorContrib
    rw [h]
    simp only [hacc, true_and, ite_self, add_zero]
  · unfold outPriorAt outPriorContrib stepB
    simp [hacc]

/-- The row loop computes every node's incoming current total. -/
lemma foldB_inValAt (rows : List Row) (st : StateB) (id : String) :
    inValAt (rows.foldl stepB st) id = inValAt st id + inSum rows id :=
  foldl_proj_sum stepB (fun s => inValAt s id) (fun r => inContrib r id)
    (fun s r => stepB_inValAt s r id) rows st

/-- The row loop computes every node's outgoing current total. -/
lemma foldB_outValAt (rows : List Row) (st : StateB) (id : String) :
    outValAt (rows.foldl stepB st) id = outValAt st id + outSum rows id :=
  foldl_proj_sum stepB (fun s => outValAt s id) (fun r => outContrib r id)
    (fun s r => stepB_outValAt s r id) rows st

/-- The row loop computes every node's incoming prior total. -/
lemma foldB_inPriorAt (rows : List Row) (st : StateB) (id : String) :
    inPriorAt (rows.foldl stepB st) id = inPriorAt st id + inPriorSum rows id :=
  foldl_proj_sum stepB (fun s => inPriorAt s id) (fun r => inPriorContrib r id)
    (fun s r => stepB_inPriorAt s r id) rows st

/-- The row loop computes every node's outgoing prior total. -/
lemma foldB_outPriorAt (rows : List Row) (st : StateB) (id : String) :
    outPriorAt (rows.foldl stepB st) id = outPriorAt st id + outPriorSum rows id :=
  foldl_proj_sum stepB (fun s => outPriorAt s id) (fun r => outPriorContrib r id)
    (fun s r => stepB_outPriorAt s r id) rows st

/-- The row loop appends exactly one LinkMeta entry per accepted row. -/
lemma foldB_linkMeta (rows : List Row) (st : StateB) :
    (rows.foldl stepB st).linkMeta = st.linkMeta ++ (rows.filter accepted).map mkLinkB := by
  induction rows generalizing st with
  | nil => simp
  | cons r rest ih =>
    by_cases hacc : accepted r = true
    · simp [List.foldl_cons, ih, stepB, hacc, List.filter_cons]
    · simp [List.foldl_cons, ih, stepB, hacc, List.filter_cons]

/-- The row loop appends exactly one raw sankey link per accepted row. -/
lemma foldB_sankey (rows : List Row) (st : StateB) :
    (rows.foldl stepB st).sankeyLinks = st.sankeyLinks ++ (rows.filter accepted).map mkSankeyB := by
  induction rows generalizing st with
  | nil => simp
  | cons r rest ih =>
    by_cases hacc : accepted r = true
    · simp [List.foldl_cons, ih, stepB, hacc, List.filter_cons]
    · simp [List.foldl_cons, ih, stepB, hacc, List.filter_cons]

/-- The totals map never acquires a duplicate key. -/
lemma foldB_keysNodup (rows : List Row) (st : StateB)
    (h : (st.nodeTotals.map Prod.fst).Nodup) :
    (((rows.foldl stepB st).nodeTotals).map Prod.fst).Nodup := by
  induction rows generalizing st with
  | nil => exact h
  | cons r rest ih =>
    rw [List.foldl_cons]
    apply ih
    by_cases hacc : accepted r = true
    · simp only [stepB, hacc, if_true]
      rw [keys_updT, keys_updT]
      exact keys_touch_nodup _ _ _ (keys_touch_nodup _ _ _ h)
    · simpa [stepB, hacc] using h

/-- Components of a successful parse, in terms of the row-level
specifications. -/
lemma parseB_ok {raw : List Row} {g : GraphData} (h : parseExcelData raw = .ok g) :
    g.linkMeta = (acceptedRows raw).map mkLinkB ∧
      g.sankeyLinks = (acceptedRows raw).map mkSankeyB ∧
      g.nodeMeta =
        ((dataRows raw).foldl stepB { nodeTotals := [], linkMeta := [], sankeyLinks := [] }).nodeTotals.map
          (fun p => (p.1, buildNodeB p.1 p.2)) := by
  unfold parseExcelData at h
  by_cases hlen : raw.length < 2
  · rw [if_pos hlen] at h
    exact absurd h (by simp)
  · rw [if_neg hlen] at h
    simp only [Except.ok.injEq] at h
    subst h
    refine ⟨?_, ?_, rfl⟩
    · simpa [acceptedRows] using foldB_linkMeta (dataRows raw) _
    · simpa [acceptedRows] using foldB_sankey (dataRows raw) _

/-- Every nodeMeta entry of a successful parse carries the four row sums
of its id as its totals. -/
lemma parseB_nodeMeta {raw : List Row} {g : GraphData} {id : String} {m : NodeMeta}
    (h : parseExcelData raw = .ok g) (hm : (id, m) ∈ g.nodeMeta) :
    ∃ t : Totals,
      m = buildNodeB id t ∧
        t.inVal = inSum (dataRows raw) id ∧ t.outVal = outSum (dataRows raw) id ∧
        t.inPrior = inPriorSum (dataRows raw) id ∧ t.outPrior = outPriorSum (dataRows raw) id := by
  obtain ⟨-, -, hnode⟩ := parseB_ok h
  rw [hnode] at hm
  obtain ⟨⟨id2, t⟩, hmem, heq⟩ := List.mem_map.mp hm
  injection heq with h1 h2
  dsimp only at h1 h2
  rw [h1] at hmem
  have hnd := foldB_keysNodup (dataRows raw)
    { nodeTotals := [], linkMeta := [], sankeyLinks := [] } (by simp)
  have hfind := findT_of_mem_nodup hnd hmem
  refine ⟨t, by rw [← h2, h1], ?_, ?_, ?_, ?_⟩
  · have hx := foldB_inValAt (dataRows raw)
      { nodeTotals := [], linkMeta := [], sankeyLinks := [] } id
    unfold inValAt projAt at hx
    rw [hfind] at hx
    simpa [findT] using hx
  · have hx := foldB_outValAt (dataRows raw)
      { nodeTotals := [], linkMeta := [], sankeyLinks := [] } id
    unfold outValAt projAt at hx
    rw [hfind] at hx
    simpa [findT] using hx
  · have hx := foldB_inPriorAt (dataRows raw)
      { nodeTotals := [], linkMeta := [], sankeyLinks := [] } id
    unfold inPriorAt projAt at hx
    rw [hfind] at hx
    simpa [findT] using hx
  · have hx := foldB_outPriorAt (dataRows raw)
      { nodeTotals := [], linkMeta := [], sankeyLinks := [] } id
    unfold outPriorAt projAt at hx
    rw [hfind] at hx
    simpa [findT] using hx

end VariantB

namespace Chart

/-- Index-wise description of the recomputed link list. -/
lemma breadthsFrom_get (ns : List LNode) (all : List LLink) :
    ∀ (l : List LLink) (k j : ℕ),
      (breadthsFrom ns all k l)[j]? = l[j]?.map (fun lk => breadthOne ns all (k + j) lk) := by
  intro l
  induction l with
  | nil => intro k j; simp [breadthsFrom]
  | cons lk rest ih =>
    intro k j
    cases j with
    | zero => simp [breadthsFrom]
    | succ j2 =>
      rw [show k + (j2 + 1) = (k + 1) + j2 by omega]
      simpa [breadthsFrom] using ih (k + 1) j2

/-- Index-wise description of computeLinkBreadths. -/
lemma computeLinkBreadths_get (ns : List LNode) (ls : List LLink) (j : ℕ) :
    (computeLinkBreadths ns ls)[j]? = ls[j]?.map (fun lk => breadthOne ns ls j lk) := by
  unfold computeLinkBreadths
  simpa using breadthsFrom_get ns ls ls 0 j

/-- nodeY0 only looks at ids and y0 fields, so any per-node transformation
that preserves them under the looked-up id preserves it. -/
lemma nodeY0_map (f : LNode → LNode) (hid : ∀ n, (f n).id = n.id)
    (ns : List LNode) (s : String) (hy : ∀ n, n.id = s → (f n).y0 = n.y0) :
    nodeY0 (ns.map f) s = nodeY0 ns s := by
  induction ns with
  | nil => rfl
  | cons n rest ih =>
    simp only [List.map_cons, nodeY0, hid]
    by_cases hns : n.id = s
    · simp [hns, hy n hns]
    · simp [hns, ih]

/-- Dragging one node leaves the looked-up top of every other node
unchanged. -/
lemma nodeY0_dragNodes (ns : List LNode) (d s : String) (dx dy : ℚ) (h : s ≠ d) :
    nodeY0 (dragNodes ns d dx dy) s = nodeY0 ns s := by
  apply nodeY0_map
  · intro n
    by_cases hid : n.id = d <;> simp [hid]
  · intro n hns
    have hnd : ¬ n.id = d := by rw [hns]; exact h
    simp [hnd]

/-- The recomputed ports of a link depend on the node list only through
the tops of its two endpoint nodes. -/
lemma breadthOne_congr (ns ns2 : List LNode) (all : List LLink) (j : ℕ) (lk : LLink)
    (hs : nodeY0 ns2 lk.source = nodeY0 ns lk.source)
    (ht : nodeY0 ns2 lk.target = nodeY0 ns lk.target) :
    breadthOne ns2 all j lk = breadthOne ns all j lk := by
  unfold breadthOne
  rw [hs, ht]

end Chart

/-- mathAbs vanishes exactly at 0. -/
lemma mathAbs_eq_zero (q : ℚ) : mathAbs q = 0 ↔ q = 0 := by
  unfold mathAbs
  split
  · simp only [neg_eq_zero]
  · simp

/-! Claim theorems, one per claim of the specification audit, with
closed witnesses and counterexamples. -/

/-- C4: a drag event changes only the geometry attached to the dragged
node.  In the SankeyChart.tsx handler (move the node, then recompute all
link breadths), every link not incident to the dragged node keeps exactly
its previous port coordinates — provided the pre-drag state was itself
breadth-consistent, as every state produced by the layout is — and every
other node keeps its position; in the older Taskpane.tsx handler (clamped
vertical move, incident paths redrawn, link records untouched), every
other node likewise keeps its position. -/
theorem claim_C4_drag_isolation (ns : List Chart.LNode) (ls : List Chart.LLink)
    (d : String) (dx dy H : ℚ) (i j : ℕ) (lk : Chart.LLink) (n : Chart.LNode)
    (hcons : Chart.computeLinkBreadths ns ls = ls)
    (hi : ls[i]? = some lk) (hs : lk.source ≠ d) (ht : lk.target ≠ d)
    (hj : ns[j]? = some n) (hn : n.id ≠ d) :
    (Chart.applyDrag ns ls d dx dy).2[i]? = some lk ∧
      (Chart.applyDrag ns ls d dx dy).1[j]? = some n ∧
      (Chart.applyDragClamped ns d dy H)[j]? = some n := by
  have hb : Chart.breadthOne ns ls i lk = lk := by
    have hgi := congrArg (fun l => l[i]?) hcons
    simp only [Chart.computeLinkBreadths_get, hi, Option.map_some'] at hgi
    exact Option.some.inj hgi
  refine ⟨?_, ?_, ?_⟩
  · show (Chart.computeLinkBreadths (Chart.dragNodes ns d dx dy) ls)[i]? = some lk
    rw [Chart.computeLinkBreadths_get, hi]
    show some (Chart.breadthOne (Chart.dragNodes ns d dx dy) ls i lk) = some lk
    rw [Chart.breadthOne_congr ns (Chart.dragNodes ns d dx dy) ls i lk
      (Chart.nodeY0_dragNodes ns d lk.source dx dy hs)
      (Chart.nodeY0_dragNodes ns d lk.target dx dy ht), hb]
  · show (Chart.dragNodes ns d dx dy)[j]? = some n
    unfold Chart.dragNodes
    rw [List.getElem?_map, hj]
    simp [hn]
  · unfold Chart.applyDragClamped
    rw [List.getElem?_map, hj]
    simp [hn]

/-- Concrete layout used by the drag claims: one source node feeding two
sinks, with breadth-consistent ports. -/
def nsW : List Chart.LNode :=
  [{ id := "A", x0 := 0, x1 := 1, y0 := 0, y1 := 2 },
   { id := "B", x0 := 3, x1 := 4, y0 := 0, y1 := 1 },
   { id := "C", x0 := 3, x1 := 4, y0 := 2, y1 := 3 }]

/-- Concrete links for the drag claims. -/
def lsW : List Chart.LLink :=
  [{ source := "A", target := "B", width := 1, y0 := 1 / 2, y1 := 1 / 2 },
   { source := "A", target := "C", width := 1, y0 := 3 / 2, y1 := 5 / 2 }]

/-- Witness for C4: dragging node B leaves the link into C and the node A
untouched. -/
theorem claim_C4_drag_isolation_witness :
    (Chart.applyDrag nsW lsW ("B") 1 1).2[1]? =
        some { source := "A", target := "C", width := 1, y0 := 3 / 2, y1 := 5 / 2 } ∧
      (Chart.applyDrag nsW lsW ("B") 1 1).1[0]? =
        some { id := "A", x0 := 0, x1 := 1, y0 := 0, y1 := 2 } ∧
      (Chart.applyDragClamped nsW ("B") 1 10)[0]? =
        some { id := "A", x0 := 0, x1 := 1, y0 := 0, y1 := 2 } :=
  claim_C4_drag_isolation nsW lsW ("B") 1 1 10 1 0
    { source := "A", target := "C", width := 1, y0 := 3 / 2, y1 := 5 / 2 }
    { id := "A", x0 := 0, x1 := 1, y0 := 0, y1 := 2 }
    (by decide) (by decide) (by decide) (by decide) (by decide) (by decide)

/-- C5: a full re-layout re-applies the recorded drag state: a node whose
id carries a saved position ends exactly at that saved position (its
freshly computed width and height retained), regardless of the position
the fresh layout derived for it, and when any drag state exists the link
ports are recomputed from the re-applied node positions before rendering. -/
theorem claim_C5_drag_persistence (saved : List (String × ℚ × ℚ))
    (ns : List Chart.LNode) (ls : List Chart.LLink) (j : ℕ) (n : Chart.LNode)
    (sx sy : ℚ) (hj : ns[j]? = some n) (hs : findT saved n.id = some (sx, sy)) :
    (Chart.relayout saved ns ls).1[j]? =
        some { n with x0 := sx, x1 := sx + (n.x1 - n.x0), y0 := sy, y1 := sy + (n.y1 - n.y0) } ∧
      (Chart.relayout saved ns ls).2 =
        Chart.computeLinkBreadths (Chart.reapplySaved saved ns) ls := by
  have hne : saved.isEmpty = false := by
    cases saved with
    | nil => simp [findT] at hs
    | cons p rest => rfl
  constructor
  · show (Chart.reapplySaved saved ns)[j]? = _
    unfold Chart.reapplySaved
    rw [List.getElem?_map, hj]
    simp [hs]
  · show (if saved.isEmpty then ls else Chart.computeLinkBreadths (Chart.reapplySaved saved ns) ls) = _
    rw [hne]
    simp

/-- Witness for C5: after an unrelated re-layout, node B reappears at its
saved position (7, 9) instead of its fresh default (3, 0). -/
theorem claim_C5_drag_persistence_witness :
    (Chart.relayout [("B", 7, 9)] nsW lsW).1[1]? =
        some { id := "B", x0 := 7, x1 := 8, y0 := 9, y1 := 10 } ∧
      (Chart.relayout [("B", 7, 9)] nsW lsW).2 =
        Chart.computeLinkBreadths (Chart.reapplySaved [("B", 7, 9)] nsW) lsW :=
  claim_C5_drag_persistence [("B", 7, 9)] nsW lsW 1
    { id := "B", x0 := 3, x1 := 4, y0 := 0, y1 := 1 } 7 9 (by decide) (by decide)

/-- Projections of the loss-routing variant's node construction. -/
lemma buildNodeA_proj (id : String) (t : VariantA.Totals) :
    (VariantA.buildNodeA id t).totalValue = t.value ∧
      (VariantA.buildNodeA id t).totalPrior = t.prior ∧
      (VariantA.buildNodeA id t).yoyPct =
        (if t.prior ≠ 0 then some ((t.value - t.prior) / t.prior * 100) else none) := by
  unfold VariantA.buildNodeA
  exact ⟨rfl, rfl, rfl⟩

/-- Projections of the sign-as-category variant's node construction. -/
lemma buildNodeB_proj (id : String) (t : VariantB.Totals) :
    (VariantB.buildNodeB id t).totalValue = mathMax t.inVal t.outVal ∧
      (VariantB.buildNodeB id t).totalPrior = mathMax t.inPrior t.outPrior ∧
      (VariantB.buildNodeB id t).yoyPct =
        (if mathMax t.inPrior t.outPrior ≠ 0 then
          some ((mathMax t.inVal t.outVal - mathMax t.inPrior t.outPrior) /
            mathMax t.inPrior t.outPrior * 100)
        else none) := by
  unfold VariantB.buildNodeB
  exact ⟨rfl, rfl, rfl⟩

/-- C1 (amended): per accepted row, the produced edge's yoyPct is null
exactly when the row's prior amount is 0 (equivalently, when the edge's
stored prior magnitude is 0), and otherwise equals
(current - prior) / |prior| * 100 — the divisor is the magnitude of the
prior, not the signed prior; both variants compute the identical per-row
value, and at node level yoyPct is null exactly when the aggregated prior
is 0 and otherwise divides the difference by the aggregated prior. -/
theorem claim_C1_yoy (raw : List Row) (gA gB : GraphData) (i : ℕ)
    (lkA lkB : LinkMeta) (r : Row) (idA idB : String) (mA mB : NodeMeta)
    (hA : VariantA.parseExcelData raw = .ok gA)
    (hB : VariantB.parseExcelData raw = .ok gB)
    (hiA : gA.linkMeta[i]? = some lkA)
    (hiB : gB.linkMeta[i]? = some lkB)
    (hr : (acceptedRows raw)[i]? = some r)
    (hmA : (idA, mA) ∈ gA.nodeMeta)
    (hmB : (idB, mB) ∈ gB.nodeMeta) :
    (lkA.yoyPct = none ↔ rowPrior r = 0) ∧
      (lkA.yoyPct = none ↔ lkA.prior = 0) ∧
      (rowPrior r ≠ 0 →
        lkA.yoyPct = some ((rowVal r - rowPrior r) / mathAbs (rowPrior r) * 100)) ∧
      lkB.yoyPct = lkA.yoyPct ∧
      (mA.yoyPct = none ↔ mA.totalPrior = 0) ∧
      (mA.totalPrior ≠ 0 →
        mA.yoyPct = some ((mA.totalValue - mA.totalPrior) / mA.totalPrior * 100)) ∧
      (mB.yoyPct = none ↔ mB.totalPrior = 0) ∧
      (mB.totalPrior ≠ 0 →
        mB.yoyPct = some ((mB.totalValue - mB.totalPrior) / mB.totalPrior * 100)) := by
  obtain ⟨hlmA, -, -⟩ := VariantA.parseA_ok hA
  obtain ⟨hlmB, -, -⟩ := VariantB.parseB_ok hB
  rw [hlmA, List.getElem?_map, hr] at hiA
  rw [hlmB, List.getElem?_map, hr] at hiB
  simp only [Option.map_some'] at hiA hiB
  have hAeq : lkA = VariantA.mkLinkA r := (Option.some.inj hiA).symm
  have hBeq : lkB = VariantB.mkLinkB r := (Option.some.inj hiB).symm
  subst hAeq
  subst hBeq
  have hmAeq := VariantA.parseA_nodeMeta hA hmA
  obtain ⟨tB, hmBeq, -, -, -, -⟩ := VariantB.parseB_nodeMeta hB hmB
  subst hmAeq
  subst hmBeq
  refine ⟨?_, ?_, ?_, rfl, ?_, ?_, ?_, ?_⟩
  · show yoyOf r = none ↔ rowPrior r = 0
    unfold yoyOf
    by_cases hp : rowPrior r = 0 <;> simp [hp]
  · show yoyOf r = none ↔ mathAbs (rowPrior r) = 0
    rw [mathAbs_eq_zero]
    unfold yoyOf
    by_cases hp : rowPrior r = 0 <;> simp [hp]
  · intro hp
    show yoyOf r = _
    unfold yoyOf
    simp [hp]
  · rw [(buildNodeA_proj _ _).2.2, (buildNodeA_proj _ _).2.1]
    by_cases hp : VariantA.priorSum (dataRows raw) idA = 0 <;> simp [hp]
  · intro hp
    rw [(buildNodeA_proj _ _).2.1] at hp
    rw [(buildNodeA_proj _ _).2.2, (buildNodeA_proj _ _).2.1, (buildNodeA_proj _ _).1]
    simp only [hp, ne_eq, not_false_iff, if_true]
  · rw [(buildNodeB_proj _ _).2.2, (buildNodeB_proj _ _).2.1]
    by_cases hp : mathMax tB.inPrior tB.outPrior = 0 <;> simp [hp]
  · intro hp
    rw [(buildNodeB_proj _ _).2.1] at hp
    rw [(buildNodeB_proj _ _).2.2, (buildNodeB_proj _ _).2.1, (buildNodeB_proj _ _).1]
    simp only [hp, ne_eq, not_false_iff, if_true]

/-- Counterexample to C1 as stated: on the row (A, B, 10, -5) the code
stores a yoyPct of +300, while the claimed formula
(current - prior) / prior * 100 with the signed prior as divisor gives
-300; the divisor actually used is Math.abs(prior). -/
theorem claim_C1_counterexample :
    (VariantA.parseExcelData
        [[Cell.str ("A"), Cell.str ("B"), Cell.str ("10"), Cell.str ("-5")],
         [Cell.str ("C"), Cell.str ("D"), Cell.str ("1"), Cell.str ("1")]]).map
        (fun g => g.linkMeta.map (fun l => l.yoyPct)) = .ok [some 300, some 0] ∧
      rowVal [Cell.str ("A"), Cell.str ("B"), Cell.str ("10"), Cell.str ("-5")] = 10 ∧
      rowPrior [Cell.str ("A"), Cell.str ("B"), Cell.str ("10"), Cell.str ("-5")] = -5 ∧
      ((10 : ℚ) - (-5)) / (-5) * 100 = -300 ∧ (300 : ℚ) ≠ -300 := by
  refine ⟨by decide, by decide, by decide, by decide, by decide⟩

/-- Input grid shared by the parser witnesses: one valid data row and one
skipped empty-label row. -/
def rawW : List Row :=
  [[Cell.str ("A"), Cell.str ("B"), Cell.str ("3"), Cell.str ("4")],
   [Cell.str (""), Cell.str (""), Cell.str (""), Cell.str ("")]]

/-- The graph the loss-routing variant produces for rawW. -/
def gAW : GraphData :=
  { nodeMeta :=
      [("A", { id := "A", name := "A", totalValue := 3, totalPrior := 4, yoyPct := some (-25),
               fillColor := "#9E9E9E", accentColor := "#424242" }),
       ("B", { id := "B", name := "B", totalValue := 3, totalPrior := 4, yoyPct := some (-25),
               fillColor := "#9E9E9E", accentColor := "#424242" })]
    linkMeta :=
      [{ sourceId := "A", targetId := "B", value := 3, prior := 4, yoyPct := some (-25),
         linkColor := "rgba(158,158,158,0.45)" }]
    sankeyNodes := ["A", "B"]
    sankeyLinks := [{ source := "A", target := "B", value := 3 }] }

/-- The graph the sign-as-category variant produces for rawW. -/
def gBW : GraphData :=
  { nodeMeta :=
      [("A", { id := "A", name := "A", totalValue := 3, totalPrior := 4, yoyPct := some (-25),
               fillColor := "#4CAF50", accentColor := "#2E7D32" }),
       ("B", { id := "B", name := "B", totalValue := 3, totalPrior := 4, yoyPct := some (-25),
               fillColor := "#4CAF50", accentColor := "#2E7D32" })]
    linkMeta :=
      [{ sourceId := "A", targetId := "B", value := 3, prior := 4, yoyPct := some (-25),
         linkColor := "rgba(76,175,80,0.5)" }]
    sankeyNodes := ["A", "B"]
    sankeyLinks := [{ source := "A", target := "B", value := 3 }] }

/-- The single accepted data row of rawW. -/
def rW1 : Row := [Cell.str ("A"), Cell.str ("B"), Cell.str ("3"), Cell.str ("4")]

/-- The LinkMeta entry the loss-routing variant produces for rW1. -/
def lkAW : LinkMeta :=
  { sourceId := "A", targetId := "B", value := 3, prior := 4, yoyPct := some (-25),
    linkColor := "rgba(158,158,158,0.45)" }

/-- The LinkMeta entry the sign-as-category variant produces for rW1. -/
def lkBW : LinkMeta :=
  { sourceId := "A", targetId := "B", value := 3, prior := 4, yoyPct := some (-25),
    linkColor := "rgba(76,175,80,0.5)" }

/-- Node A's metadata in the loss-routing parse of rawW. -/
def mAW : NodeMeta :=
  { id := "A", name := "A", totalValue := 3, totalPrior := 4, yoyPct := some (-25),
    fillColor := "#9E9E9E", accentColor := "#424242" }

/-- Node A's metadata in the sign-as-category parse of rawW. -/
def mBW : NodeMeta :=
  { id := "A", name := "A", totalValue := 3, totalPrior := 4, yoyPct := some (-25),
    fillColor := "#4CAF50", accentColor := "#2E7D32" }

/-- Witness for the amended C1 at the concrete row (A, B, 3, 4). -/
theorem claim_C1_yoy_witness :
    (some (-25 : ℚ) = none ↔ rowPrior rW1 = 0) ∧
      (some (-25 : ℚ) = none ↔ (4 : ℚ) = 0) ∧
      (rowPrior rW1 ≠ 0 →
        some (-25 : ℚ) = some ((rowVal rW1 - rowPrior rW1) / mathAbs (rowPrior rW1) * 100)) ∧
      (some (-25 : ℚ) : Option ℚ) = some (-25 : ℚ) ∧
      (some (-25 : ℚ) = none ↔ (4 : ℚ) = 0) ∧
      ((4 : ℚ) ≠ 0 → some (-25 : ℚ) = some (((3 : ℚ) - 4) / 4 * 100)) ∧
      (some (-25 : ℚ) = none ↔ (4 : ℚ) = 0) ∧
      ((4 : ℚ) ≠ 0 → some (-25 : ℚ) = some (((3 : ℚ) - 4) / 4 * 100)) :=
  claim_C1_yoy rawW gAW gBW 0 lkAW lkBW rW1 ("A") ("A") mAW mBW
    (by decide) (by decide) (by decide) (by decide) (by decide) (by decide) (by decide)

/-- C2 (amended): in the sign-as-category variant, every node's
totalValue is the larger of its total-in and its total-out, each total
being the sum of abs(amount) over the node's incident accepted rows; in
the loss-routing variant the outgoing and (loss-resolved) incoming
accumulations are summed into one total instead, so an intermediate node
there carries in + out (double-counting pass-through volume), while pure
sources and pure sinks still carry exactly their one-sided sums in both
variants. -/
theorem claim_C2_total (raw : List Row) (gA gB : GraphData)
    (idA idB : String) (mA mB : NodeMeta)
    (hA : VariantA.parseExcelData raw = .ok gA)
    (hB : VariantB.parseExcelData raw = .ok gB)
    (hmA : (idA, mA) ∈ gA.nodeMeta)
    (hmB : (idB, mB) ∈ gB.nodeMeta) :
    mB.totalValue =
        mathMax (VariantB.inSum (dataRows raw) idB) (VariantB.outSum (dataRows raw) idB) ∧
      mA.totalValue = VariantA.valSum (dataRows raw) idA := by
  constructor
  · obtain ⟨t, hmBeq, hin, hout, -, -⟩ := VariantB.parseB_nodeMeta hB hmB
    subst hmBeq
    rw [(buildNodeB_proj _ _).1, hin, hout]
  · have hmAeq := VariantA.parseA_nodeMeta hA hmA
    subst hmAeq
    rw [(buildNodeA_proj _ _).1]

/-- Counterexample to C2 as stated: on rows (A, B, 10) and (B, C, 10) the
loss-routing variant stores totalValue 20 for the intermediate node B —
the sum of its total-in (10) and total-out (10) — where the claimed
larger-of rule would give 10. -/
theorem claim_C2_counterexample :
    (VariantA.parseExcelData
        [[Cell.str ("A"), Cell.str ("B"), Cell.str ("10"), Cell.str ("0")],
         [Cell.str ("B"), Cell.str ("C"), Cell.str ("10"), Cell.str ("0")]]).map
        (fun g => g.nodeMeta.map (fun p => (p.1, p.2.totalValue))) =
      .ok [("A", 10), ("B", 20), ("C", 10)] ∧
      mathMax (10 : ℚ) 10 = 10 ∧ (20 : ℚ) ≠ 10 := by
  refine ⟨by decide, by decide, by decide⟩

/-- Witness for the amended C2 on the concrete grid rawW. -/
theorem claim_C2_total_witness :
    (3 : ℚ) = mathMax (VariantB.inSum (dataRows rawW) ("A")) (VariantB.outSum (dataRows rawW) ("A")) ∧
      (3 : ℚ) = VariantA.valSum (dataRows rawW) ("A") :=
  claim_C2_total rawW gAW gBW ("A") ("A") mAW mBW
    (by decide) (by decide) (by decide) (by decide)

/-- leadsWith always accepts its own prefix. -/
lemma leadsWith_append_self (pat rest : List Char) : leadsWith pat (pat ++ rest) = true := by
  induction pat with
  | nil => rfl
  | cons c cs ih => simp [leadsWith, ih]

/-- A string starts with anything it was built by prepending. -/
lemma strStartsWith_append (pre rest : String) : strStartsWith (pre ++ rest) pre = true := by
  unfold strStartsWith
  have hd : (pre ++ rest).data = pre.data ++ rest.data := rfl
  rw [hd]
  exact leadsWith_append_self pre.data rest.data

/-- C3 (amended): for an accepted row with a negative current amount, the
loss-routing variant appends exactly one edge from the declared source to
the synthetic id obtained by prepending the loss tag to the declared
target — never to the declared target itself (the synthetic id always
differs from the row's target); the declared target's accumulated totals
are untouched by the row (whenever it is not also the row's source, whose
outgoing side does accumulate); and the synthetic id cannot collide with
any real trimmed label unless that label itself starts with the loss
tag. -/
theorem claim_C3_loss_routing (st : VariantA.StateA) (r : Row) (lbl : String)
    (hacc : accepted r = true) (hneg : rowVal r < 0)
    (hlbl : strStartsWith lbl ("__loss__") = false) :
    (VariantA.stepA st r).linkMeta = st.linkMeta ++ [VariantA.mkLinkA r] ∧
      (VariantA.mkLinkA r).targetId = "__loss__" ++ rowTgt r ∧
      "__loss__" ++ rowTgt r ≠ rowTgt r ∧
      "__loss__" ++ rowTgt r ≠ lbl ∧
      (rowTgt r ≠ rowSrc r →
        VariantA.valueAt (VariantA.stepA st r) (rowTgt r) = VariantA.valueAt st (rowTgt r) ∧
          VariantA.priorAt (VariantA.stepA st r) (rowTgt r) = VariantA.priorAt st (rowTgt r)) := by
  have hlossne : "__loss__" ++ rowTgt r ≠ rowTgt r := by
    intro hEq
    have hlen := congrArg String.length hEq
    rw [String.length_append] at hlen
    have h8 : ("__loss__" : String).length = 8 := rfl
    rw [h8] at hlen
    omega
  refine ⟨?_, ?_, hlossne, ?_, ?_⟩
  · simp [VariantA.stepA, hacc]
  · unfold VariantA.mkLinkA VariantA.resTgtA VariantA.lossIdOf
    simp [hneg]
  · intro hEq
    rw [← hEq] at hlbl
    rw [strStartsWith_append] at hlbl
    simp at hlbl
  · intro hne
    have h1 : ¬ (accepted r = true ∧ rowSrc r = rowTgt r) := by
      rintro ⟨-, hh⟩
      exact hne hh.symm
    have h2 : ¬ (accepted r = true ∧ VariantA.resTgtA r = rowTgt r) := by
      rintro ⟨-, hh⟩
      unfold VariantA.resTgtA VariantA.lossIdOf at hh
      rw [if_pos hneg] at hh
      exact hlossne hh
    constructor
    · rw [VariantA.stepA_valueAt]
      unfold VariantA.valContrib
      rw [if_neg h1, if_neg h2]
      ring
    · rw [VariantA.stepA_priorAt]
      unfold VariantA.priorContrib
      rw [if_neg h1, if_neg h2]
      ring

/-- Counterexample to C3 as stated: with the real trimmed label
"__loss__B" in the data, the synthetic loss id for target B collides with
it — the parse produces only three nodes and merges the real flow (5) and
the routed loss (3) into one total of 8 under the shared id. -/
theorem claim_C3_counterexample :
    (VariantA.parseExcelData
        [[Cell.str ("A"), Cell.str ("__loss__B"), Cell.str ("5"), Cell.str ("0")],
         [Cell.str ("A"), Cell.str ("B"), Cell.str ("-3"), Cell.str ("0")]]).map
        (fun g => (g.sankeyNodes, g.nodeMeta.map (fun p => (p.1, p.2.totalValue)),
          g.linkMeta.map (fun l => l.targetId))) =
      .ok (["A", "__loss__B", "B"], [("A", 8), ("__loss__B", 8), ("B", 0)],
        ["__loss__B", "__loss__B"]) := by decide

/-- Negative-amount row used by the C3 witness. -/
def rNeg : Row := [Cell.str ("A"), Cell.str ("B"), Cell.str ("-3"), Cell.str ("0")]

/-- Witness for the amended C3 at the concrete row (A, B, -3, 0). -/
theorem claim_C3_loss_routing_witness :
    (VariantA.stepA { nodeTotals := [], linkMeta := [], sankeyLinks := [] } rNeg).linkMeta =
        [] ++ [VariantA.mkLinkA rNeg] ∧
      (VariantA.mkLinkA rNeg).targetId = "__loss__" ++ rowTgt rNeg ∧
      "__loss__" ++ rowTgt rNeg ≠ rowTgt rNeg ∧
      "__loss__" ++ rowTgt rNeg ≠ ("Revenue") ∧
      (rowTgt rNeg ≠ rowSrc rNeg →
        VariantA.valueAt (VariantA.stepA { nodeTotals := [], linkMeta := [], sankeyLinks := [] } rNeg)
            (rowTgt rNeg) =
          VariantA.valueAt { nodeTotals := [], linkMeta := [], sankeyLinks := [] } (rowTgt rNeg) ∧
          VariantA.priorAt (VariantA.stepA { nodeTotals := [], linkMeta := [], sankeyLinks := [] } rNeg)
              (rowTgt rNeg) =
            VariantA.priorAt { nodeTotals := [], linkMeta := [], sankeyLinks := [] } (rowTgt rNeg)) :=
  claim_C3_loss_routing { nodeTotals := [], linkMeta := [], sankeyLinks := [] } rNeg ("Revenue")
    (by decide) (by decide) (by decide)

/-- C6: with fewer than 2 rows, both parser variants throw the
validation error and return no partial graph. -/
theorem claim_C6_validation (raw : List Row) (h : raw.length < 2) :
    VariantA.parseExcelData raw = .error validationMsg ∧
      VariantB.parseExcelData raw = .error validationMsg := by
  constructor
  · simp [VariantA.parseExcelData, h]
  · simp [VariantB.parseExcelData, h]

/-- Witness for C6: an input of exactly one row raises the validation
error in both variants. -/
theorem claim_C6_validation_witness :
    VariantA.parseExcelData [[Cell.str ("A"), Cell.str ("B"), Cell.num 1, Cell.num 1]] =
        .error validationMsg ∧
      VariantB.parseExcelData [[Cell.str ("A"), Cell.str ("B"), Cell.num 1, Cell.num 1]] =
        .error validationMsg :=
  claim_C6_validation [[Cell.str ("A"), Cell.str ("B"), Cell.num 1, Cell.num 1]] (by decide)

/-- C7 (amended): the first row is excluded as a header iff its third
cell is of string type AND that string fails to parse as a number after
comma-to-dot replacement; a non-string third cell — numeric, boolean or
missing — always leaves the first row in the data, even when it does not
parse as a number. -/
theorem claim_C7_header (raw : List Row) (first : Row) (rest : List Row) (g : GraphData)
    (he : raw = first :: rest) (hg : VariantA.parseExcelData raw = .ok g) :
    (hasHeader first = true ↔
        ∃ s, first.get? 2 = some (Cell.str s) ∧
          jsParseFloat (String.mk (replFirst s.data ',' '.')) = none) ∧
      g.linkMeta =
        ((if hasHeader first then rest else first :: rest).filter accepted).map
          VariantA.mkLinkA := by
  constructor
  · unfold hasHeader
    cases h2 : first.get? 2 with
    | none => simp [h2]
    | some c =>
      cases c with
      | str s => simp [h2, Option.isNone_iff_eq_none]
      | num q => simp [h2]
      | boolean b => simp [h2]
  · obtain ⟨hlm, -, -⟩ := VariantA.parseA_ok hg
    rw [hlm, he]
    rfl

/-- Counterexample to C7 as stated: a first row whose third cell is the
boolean true does not parse as a number, yet it is kept as a data row —
the parse emits nodes H1 and H2 for it — because the header check
additionally requires the cell to be of string type. -/
theorem claim_C7_counterexample :
    (VariantA.parseExcelData
        [[Cell.str ("H1"), Cell.str ("H2"), Cell.boolean true, Cell.str ("x")],
         [Cell.str ("A"), Cell.str ("B"), Cell.str ("1"), Cell.str ("1")]]).map
        (fun g => g.sankeyNodes) = .ok (["H1", "H2", "A", "B"]) ∧
      parseNum (Cell.boolean true) = 0 ∧
      jsParseFloat ((Cell.boolean true).toStr) = none := by
  refine ⟨by decide, by decide, by decide⟩

/-- Header row of the C7 witness grid. -/
def firstH : Row :=
  [Cell.str ("Source"), Cell.str ("Target"), Cell.str ("Amount"), Cell.str ("Prior")]

/-- Data rows of the C7 witness grid. -/
def restH : List Row := [[Cell.str ("A"), Cell.str ("B"), Cell.str ("100"), Cell.str ("90")]]

/-- The graph the loss-routing variant produces for the C7 witness grid:
the header is excluded and only the data row remains. -/
def gH : GraphData :=
  { nodeMeta :=
      [("A", { id := "A", name := "A", totalValue := 100, totalPrior := 90,
               yoyPct := some (100 / 9), fillColor := "#9E9E9E", accentColor := "#424242" }),
       ("B", { id := "B", name := "B", totalValue := 100, totalPrior := 90,
               yoyPct := some (100 / 9), fillColor := "#9E9E9E", accentColor := "#424242" })]
    linkMeta :=
      [{ sourceId := "A", targetId := "B", value := 100, prior := 90,
         yoyPct := some (100 / 9), linkColor := "rgba(158,158,158,0.45)" }]
    sankeyNodes := ["A", "B"]
    sankeyLinks := [{ source := "A", target := "B", value := 100 }] }

/-- Witness for the amended C7 on a textual header row. -/
theorem claim_C7_header_witness :
    (hasHeader firstH = true ↔
        ∃ s, firstH.get? 2 = some (Cell.str s) ∧
          jsParseFloat (String.mk (replFirst s.data ',' '.')) = none) ∧
      gH.linkMeta =
        ((if hasHeader firstH then restH else firstH :: restH).filter accepted).map
          VariantA.mkLinkA :=
  claim_C7_header (firstH :: restH) firstH restH gH rfl (by decide)

/-- C8: a string cell whose normalized content fails to parse coerces to
0; an accepted row always appends exactly one link in both variants, no
matter what its numeric cells hold; and a grid of at least 2 rows never
fails to parse in either variant. -/
theorem claim_C8_lenient (s : String) (stA : VariantA.StateA) (stB : VariantB.StateB)
    (r : Row) (raw : List Row)
    (hfail : jsParseFloat (parseNumNorm s) = none)
    (hacc : accepted r = true) (hlen : 2 ≤ raw.length) :
    parseNum (Cell.str s) = 0 ∧
      (VariantA.stepA stA r).linkMeta.length = stA.linkMeta.length + 1 ∧
      (VariantB.stepB stB r).linkMeta.length = stB.linkMeta.length + 1 ∧
      (∃ gA, VariantA.parseExcelData raw = .ok gA) ∧
      (∃ gB, VariantB.parseExcelData raw = .ok gB) := by
  refine ⟨?_, ?_, ?_, ?_, ?_⟩
  · simp [parseNum, Cell.toStr, hfail]
  · simp [VariantA.stepA, hacc]
  · simp [VariantB.stepB, hacc]
  · exact ⟨_, by unfold VariantA.parseExcelData; rw [if_neg (by omega)]⟩
  · exact ⟨_, by unfold VariantB.parseExcelData; rw [if_neg (by omega)]⟩

/-- Row with unparseable numeric cells, used by the C8 witness. -/
def rX : Row := [Cell.str ("A"), Cell.str ("B"), Cell.str ("x"), Cell.str ("y")]

/-- Witness for C8: the malformed cells coerce to 0, the row still
produces its link, and the parse succeeds. -/
theorem claim_C8_lenient_witness :
    parseNum (Cell.str ("abc")) = 0 ∧
      (VariantA.stepA { nodeTotals := [], linkMeta := [], sankeyLinks := [] } rX).linkMeta.length =
        0 + 1 ∧
      (VariantB.stepB { nodeTotals := [], linkMeta := [], sankeyLinks := [] } rX).linkMeta.length =
        0 + 1 ∧
      (∃ gA, VariantA.parseExcelData rawW = .ok gA) ∧
      (∃ gB, VariantB.parseExcelData rawW = .ok gB) :=
  claim_C8_lenient ("abc") { nodeTotals := [], linkMeta := [], sankeyLinks := [] }
    { nodeTotals := [], linkMeta := [], sankeyLinks := [] } rX rawW
    (by decide) (by decide) (by decide)

/-- mathAbs is strictly positive away from 0. -/
lemma mathAbs_pos (q : ℚ) (h : q ≠ 0) : 0 < mathAbs q := by
  rcases lt_trichotomy q 0 with h1 | h1 | h1
  · unfold mathAbs
    rw [if_pos h1]
    linarith
  · exact absurd h1 h
  · unfold mathAbs
    rw [if_neg (by linarith)]
    exact h1

/-- C9: a zero current amount still yields a strictly positive rendered
sankey value (the 0.001 floor), while in BOTH variants the edge metadata
records the true absolute amounts and every node total is built from the
true absolute amounts of its incident accepted rows only — the sum of the
two directional sums in the loss-routing variant, the larger of the
directional sums in the sign-as-category variant — so the floor value
reaches neither the link metadata nor any node total. -/
theorem claim_C9_floor (raw : List Row) (gA gB : GraphData) (i : ℕ)
    (lkM lkMB : LinkMeta) (lkSA lkSB : SankeyLink) (r : Row) (id idB : String)
    (m mB : NodeMeta)
    (hA : VariantA.parseExcelData raw = .ok gA)
    (hB : VariantB.parseExcelData raw = .ok gB)
    (hM : gA.linkMeta[i]? = some lkM)
    (hMB : gB.linkMeta[i]? = some lkMB)
    (hSA : gA.sankeyLinks[i]? = some lkSA)
    (hSB : gB.sankeyLinks[i]? = some lkSB)
    (hr : (acceptedRows raw)[i]? = some r)
    (hm : (id, m) ∈ gA.nodeMeta)
    (hmB : (idB, mB) ∈ gB.nodeMeta) :
    (lkM.value = mathAbs (rowVal r) ∧ lkM.prior = mathAbs (rowPrior r)) ∧
      (lkMB.value = mathAbs (rowVal r) ∧ lkMB.prior = mathAbs (rowPrior r)) ∧
      (lkSA.value = (if mathAbs (rowVal r) = 0 then 1 / 1000 else mathAbs (rowVal r)) ∧
        0 < lkSA.value) ∧
      (lkSB.value = (if mathAbs (rowVal r) = 0 then 1 / 1000 else mathAbs (rowVal r)) ∧
        0 < lkSB.value) ∧
      (m.totalValue = VariantA.valSum (dataRows raw) id ∧
        m.totalPrior = VariantA.priorSum (dataRows raw) id) ∧
      (mB.totalValue =
          mathMax (VariantB.inSum (dataRows raw) idB) (VariantB.outSum (dataRows raw) idB) ∧
        mB.totalPrior =
          mathMax (VariantB.inPriorSum (dataRows raw) idB)
            (VariantB.outPriorSum (dataRows raw) idB)) := by
  obtain ⟨hlmA, hskA, -⟩ := VariantA.parseA_ok hA
  obtain ⟨hlmB, hskB, -⟩ := VariantB.parseB_ok hB
  rw [hlmA, List.getElem?_map, hr] at hM
  rw [hlmB, List.getElem?_map, hr] at hMB
  rw [hskA, List.getElem?_map, hr] at hSA
  rw [hskB, List.getElem?_map, hr] at hSB
  simp only [Option.map_some'] at hM hMB hSA hSB
  have hMeq : lkM = VariantA.mkLinkA r := (Option.some.inj hM).symm
  have hMBeq : lkMB = VariantB.mkLinkB r := (Option.some.inj hMB).symm
  have hSAeq : lkSA = VariantA.mkSankeyA r := (Option.some.inj hSA).symm
  have hSBeq : lkSB = VariantB.mkSankeyB r := (Option.some.inj hSB).symm
  subst hMeq
  subst hMBeq
  subst hSAeq
  subst hSBeq
  have hpos : 0 < (if mathAbs (rowVal r) = 0 then (1 : ℚ) / 1000 else mathAbs (rowVal r)) := by
    by_cases h0 : mathAbs (rowVal r) = 0
    · rw [if_pos h0]
      norm_num
    · rw [if_neg h0]
      exact mathAbs_pos _ (fun hq => h0 ((mathAbs_eq_zero _).mpr hq))
  have hmAeq := VariantA.parseA_nodeMeta hA hm
  subst hmAeq
  obtain ⟨tB, hmBeq, hin, hout, hinP, houtP⟩ := VariantB.parseB_nodeMeta hB hmB
  subst hmBeq
  refine ⟨⟨rfl, rfl⟩, ⟨rfl, rfl⟩, ⟨rfl, hpos⟩, ⟨rfl, hpos⟩,
    ⟨(buildNodeA_proj _ _).1, (buildNodeA_proj _ _).2.1⟩, ?_, ?_⟩
  · rw [(buildNodeB_proj _ _).1, hin, hout]
  · rw [(buildNodeB_proj _ _).2.1, hinP, houtP]

/-- Zero-amount grid used by the C9 witness. -/
def rawZ : List Row :=
  [[Cell.str ("A"), Cell.str ("B"), Cell.str ("0"), Cell.str ("0")],
   [Cell.str (""), Cell.str (""), Cell.str (""), Cell.str ("")]]

/-- Its single accepted row. -/
def rZ : Row := [Cell.str ("A"), Cell.str ("B"), Cell.str ("0"), Cell.str ("0")]

/-- The graph the loss-routing variant produces for rawZ. -/
def gAZ : GraphData :=
  { nodeMeta :=
      [("A", { id := "A", name := "A", totalValue := 0, totalPrior := 0, yoyPct := none,
               fillColor := "#9E9E9E", accentColor := "#424242" }),
       ("B", { id := "B", name := "B", totalValue := 0, totalPrior := 0, yoyPct := none,
               fillColor := "#9E9E9E", accentColor := "#424242" })]
    linkMeta :=
      [{ sourceId := "A", targetId := "B", value := 0, prior := 0, yoyPct := none,
         linkColor := "rgba(158,158,158,0.45)" }]
    sankeyNodes := ["A", "B"]
    sankeyLinks := [{ source := "A", target := "B", value := 1 / 1000 }] }

/-- The graph the sign-as-category variant produces for rawZ. -/
def gBZ : GraphData :=
  { nodeMeta :=
      [("A", { id := "A", name := "A", totalValue := 0, totalPrior := 0, yoyPct := none,
               fillColor := "#4CAF50", accentColor := "#2E7D32" }),
       ("B", { id := "B", name := "B", totalValue := 0, totalPrior := 0, yoyPct := none,
               fillColor := "#4CAF50", accentColor := "#2E7D32" })]
    linkMeta :=
      [{ sourceId := "A", targetId := "B", value := 0, prior := 0, yoyPct := none,
         linkColor := "rgba(76,175,80,0.5)" }]
    sankeyNodes := ["A", "B"]
    sankeyLinks := [{ source := "A", target := "B", value := 1 / 1000 }] }

/-- Witness for C9 on a zero-amount row: rendered value 1/1000 > 0, true
metadata and totals all 0, in both variants. -/
theorem claim_C9_floor_witness :
    ((0 : ℚ) = mathAbs (rowVal rZ) ∧ (0 : ℚ) = mathAbs (rowPrior rZ)) ∧
      ((0 : ℚ) = mathAbs (rowVal rZ) ∧ (0 : ℚ) = mathAbs (rowPrior rZ)) ∧
      ((1 : ℚ) / 1000 = (if mathAbs (rowVal rZ) = 0 then 1 / 1000 else mathAbs (rowVal rZ)) ∧
        (0 : ℚ) < 1 / 1000) ∧
      ((1 : ℚ) / 1000 = (if mathAbs (rowVal rZ) = 0 then 1 / 1000 else mathAbs (rowVal rZ)) ∧
        (0 : ℚ) < 1 / 1000) ∧
      ((0 : ℚ) = VariantA.valSum (dataRows rawZ) ("A") ∧
        (0 : ℚ) = VariantA.priorSum (dataRows rawZ) ("A")) ∧
      ((0 : ℚ) = mathMax (VariantB.inSum (dataRows rawZ) ("A")) (VariantB.outSum (dataRows rawZ) ("A")) ∧
        (0 : ℚ) =
          mathMax (VariantB.inPriorSum (dataRows rawZ) ("A"))
            (VariantB.outPriorSum (dataRows rawZ) ("A"))) :=
  claim_C9_floor rawZ gAZ gBZ 0
    { sourceId := "A", targetId := "B", value := 0, prior := 0, yoyPct := none,
      linkColor := "rgba(158,158,158,0.45)" }
    { sourceId := "A", targetId := "B", value := 0, prior := 0, yoyPct := none,
      linkColor := "rgba(76,175,80,0.5)" }
    { source := "A", target := "B", value := 1 / 1000 }
    { source := "A", target := "B", value := 1 / 1000 }
    rZ ("A") ("A")
    { id := "A", name := "A", totalValue := 0, totalPrior := 0, yoyPct := none,
      fillColor := "#9E9E9E", accentColor := "#424242" }
    { id := "A", name := "A", totalValue := 0, totalPrior := 0, yoyPct := none,
      fillColor := "#4CAF50", accentColor := "#2E7D32" }
    (by decide) (by decide) (by decide) (by decide) (by decide) (by decide) (by decide)
    (by decide) (by decide)

/-- C10: a row whose first or second cell is JS-falsy is skipped entirely
by both variants, and the number 0, the boolean false and the empty
string are all falsy label cells. -/
theorem claim_C10_falsy_skip (stA : VariantA.StateA) (stB : VariantB.StateB) (r : Row)
    (h : cellTruthy r[0]? = false ∨ cellTruthy r[1]? = false) :
    VariantA.stepA stA r = stA ∧ VariantB.stepB stB r = stB ∧
      Cell.truthy (Cell.num 0) = false ∧ Cell.truthy (Cell.boolean false) = false ∧
      Cell.truthy (Cell.str ("")) = false := by
  have hacc : accepted r = false := by
    unfold accepted
    rcases h with h | h <;> simp [h]
  refine ⟨?_, ?_, by decide, rfl, by decide⟩
  · simp [VariantA.stepA, hacc]
  · simp [VariantB.stepB, hacc]

/-- Witness for C10: a row using the number 0 as its source label is
dropped by both variants. -/
theorem claim_C10_falsy_skip_witness :
    VariantA.stepA { nodeTotals := [], linkMeta := [], sankeyLinks := [] }
          [Cell.num 0, Cell.str ("B"), Cell.num 5, Cell.num 5] =
        { nodeTotals := [], linkMeta := [], sankeyLinks := [] } ∧
      VariantB.stepB { nodeTotals := [], linkMeta := [], sankeyLinks := [] }
          [Cell.num 0, Cell.str ("B"), Cell.num 5, Cell.num 5] =
        { nodeTotals := [], linkMeta := [], sankeyLinks := [] } ∧
      Cell.truthy (Cell.num 0) = false ∧ Cell.truthy (Cell.boolean false) = false ∧
      Cell.truthy (Cell.str ("")) = false :=
  claim_C10_falsy_skip { nodeTotals := [], linkMeta := [], sankeyLinks := [] }
    { nodeTotals := [], linkMeta := [], sankeyLinks := [] }
    [Cell.num 0, Cell.str ("B"), Cell.num 5, Cell.num 5] (Or.inl (by decide))

end FinSankey
